import Mathlib

/-!
Verification of the Oracle APEX MCP relay server (`server.js` and its near-duplicate
variant) against its natural-language specification.

The embedding models:
* JSON values (`Json`) and the behaviour of JavaScript `JSON.parse` (`jsonParse`),
  including rejection of malformed input and of trailing garbage;
* JavaScript property access on parsed values (`jsGet`), which throws a `TypeError`
  on `null` and yields `undefined` (here `Option.none`) for absent fields;
* JavaScript string coercion (`jsToString`), used by template interpolation
  (`Bearer ${token}`) and by `JSON.parse`'s argument coercion;
* JavaScript `String.prototype.split(" ")` (`splitSp` / `jsSplitSpace`);
* the two upstream operations `getAccessToken` and `fetchProducts`, each paired with
  the list of outbound HTTP calls it issues;
* the `/sse/tools/call` handler (`sseToolsCall`) with its bearer-key gate, and the
  whole Express app dispatch (`handleApp`) including the CORS/OPTIONS middleware
  and the `/mcp/debug` echo endpoint.
-/

/-- JSON values.  Numbers keep their source lexeme (no claim depends on numeric
normalisation), objects keep their key/value pairs in source order (a later
duplicate key shadows an earlier one via `jsLookup`). -/
inductive Json where
  | null : Json
  | bool : Bool → Json
  | num : String → Json
  | str : String → Json
  | arr : List Json → Json
  | obj : List (String × Json) → Json

/-- Object field lookup with JavaScript semantics for duplicate keys: the last
binding wins. -/
def jsLookup : List (String × Json) → String → Option Json
  | [], _ => none
  | (k', v) :: rest, k =>
    match jsLookup rest k with
    | some r => some r
    | none => if k' = k then some v else none

/-- JavaScript property access `v.k` on a parsed JSON value, for plain data keys
(the keys this server reads: `items`, `dane_produktu`, `url`, `nazwa`, `ocena`,
`cena`, `liczba_sprzedanych`, `access_token`).  Access on `null` throws a
`TypeError`; on a non-object value it yields `undefined` (`none`); on an object
it yields the field or `undefined`. -/
def jsGet : Json → String → Except String (Option Json)
  | Json.null, _ => Except.error "TypeError: Cannot read properties of null"
  | Json.obj fs, k => Except.ok (jsLookup fs k)
  | _, _ => Except.ok none

/-- The value of `v.k` when the access does not throw (absent fields give `none`,
i.e. JavaScript `undefined`). -/
def jsField (v : Json) (k : String) : Option Json :=
  match jsGet v k with
  | Except.ok r => r
  | Except.error _ => none

/-- JavaScript string coercion of an array element (`Array.prototype.toString`
joins elements with commas; `null` and nested emptiness coerce to the empty
string).  Only a faithful-enough approximation is needed: no claim coerces an
array. -/
def jsCoerceElem : Json → String
  | Json.null => ""
  | Json.bool b => cond b "true" "false"
  | Json.num lex => lex
  | Json.str s => s
  | Json.obj _ => "[object Object]"
  | Json.arr xs => String.intercalate "," (xs.attach.map (fun x => jsCoerceElem x.1))
termination_by j => sizeOf j
decreasing_by
  have := List.sizeOf_lt_of_mem x.2
  simp only [Json.arr.sizeOf_spec]
  omega

/-- JavaScript `String(x)` coercion of a possibly-`undefined` value, as used in
template interpolation and in `JSON.parse`'s argument coercion. -/
def jsToString : Option Json → String
  | none => "undefined"
  | some Json.null => "null"
  | some (Json.bool b) => cond b "true" "false"
  | some (Json.num lex) => lex
  | some (Json.str s) => s
  | some (Json.obj _) => "[object Object]"
  | some (Json.arr xs) => String.intercalate "," (xs.map jsCoerceElem)

/-- JSON insignificant whitespace. -/
def isJsonWs (c : Char) : Bool :=
  c == ' ' || c == '\t' || c == '\n' || c == '\r'

/-- Skip leading JSON whitespace. -/
def skipWs : List Char → List Char
  | [] => []
  | c :: cs => if isJsonWs c then skipWs cs else c :: cs

/-- Value of a hexadecimal digit, for `\u` escapes. -/
def hexDigit (c : Char) : Option Nat :=
  if '0' ≤ c ∧ c ≤ '9' then some (c.toNat - '0'.toNat)
  else if 'a' ≤ c ∧ c ≤ 'f' then some (c.toNat - 'a'.toNat + 10)
  else if 'A' ≤ c ∧ c ≤ 'F' then some (c.toNat - 'A'.toNat + 10)
  else none

/-- Parse the body of a JSON string literal (the opening quote already consumed),
returning the decoded characters and the remainder after the closing quote.
Raw control characters are rejected, escapes are decoded; a `\u` escape naming
an invalid code point degrades to `Char.ofNat`'s fallback (no claim uses one). -/
def parseStringBody : List Char → Option (List Char × List Char)
  | [] => none
  | '"' :: cs => some ([], cs)
  | ['\\'] => none
  | '\\' :: e :: cs =>
    if e = 'u' then
      match cs with
      | h1 :: h2 :: h3 :: h4 :: cs2 =>
        match hexDigit h1, hexDigit h2, hexDigit h3, hexDigit h4 with
        | some a, some b, some c, some d =>
          (parseStringBody cs2).map (fun r => (Char.ofNat (((a * 16 + b) * 16 + c) * 16 + d) :: r.1, r.2))
        | _, _, _, _ => none
      | _ => none
    else
      match
        (if e = '"' then some '"'
         else if e = '\\' then some '\\'
         else if e = '/' then some '/'
         else if e = 'n' then some '\n'
         else if e = 't' then some '\t'
         else if e = 'r' then some '\r'
         else if e = 'b' then some (Char.ofNat 8)
         else if e = 'f' then some (Char.ofNat 12)
         else none) with
      | some ch => (parseStringBody cs).map (fun r => (ch :: r.1, r.2))
      | none => none
  | c :: cs =>
    if c.toNat < 32 then none
    else (parseStringBody cs).map (fun r => (c :: r.1, r.2))

/-- Parse a JSON number starting at the given characters, returning its lexeme
and the remainder.  Enforces the JSON grammar (no leading zeros, digits required
around `.` and after an exponent marker). -/
def parseNumber (cs : List Char) : Option (String × List Char) :=
  let sign : List Char × List Char :=
    match cs with
    | '-' :: t => (['-'], t)
    | _ => ([], cs)
  let ip := sign.2.takeWhile Char.isDigit
  let r1 := sign.2.drop ip.length
  if ip.isEmpty then none
  else if 2 ≤ ip.length ∧ ip.headD 'x' = '0' then none
  else
    let frac : Option (List Char × List Char) :=
      match r1 with
      | '.' :: t =>
        let fs := t.takeWhile Char.isDigit
        if fs.isEmpty then none else some ('.' :: fs, t.drop fs.length)
      | _ => some ([], r1)
    match frac with
    | none => none
    | some (fp, r2) =>
      let expo : Option (List Char × List Char) :=
        match r2 with
        | e :: t =>
          if e = 'e' ∨ e = 'E' then
            let sg : List Char × List Char :=
              match t with
              | '+' :: u => (['+'], u)
              | '-' :: u => (['-'], u)
              | _ => ([], t)
            let es := sg.2.takeWhile Char.isDigit
            if es.isEmpty then none else some (e :: (sg.1 ++ es), sg.2.drop es.length)
          else some ([], r2)
        | [] => some ([], r2)
      match expo with
      | none => none
      | some (ep, r3) => some (String.mk (sign.1 ++ ip ++ fp ++ ep), r3)

mutual

/-- Parse one JSON value (fuel-bounded recursive-descent, mirroring the grammar
accepted by JavaScript `JSON.parse`). -/
def parseVal : Nat → List Char → Option (Json × List Char)
  | 0, _ => none
  | Nat.succ fuel, cs =>
    match skipWs cs with
    | [] => none
    | c :: cs' =>
      if c = '"' then
        match parseStringBody cs' with
        | some (s, rest) => some (Json.str (String.mk s), rest)
        | none => none
      else if c = '{' then parseObjBody fuel cs'
      else if c = '[' then parseArrBody fuel cs'
      else if c = 't' then
        match cs' with
        | 'r' :: 'u' :: 'e' :: rest => some (Json.bool true, rest)
        | _ => none
      else if c = 'f' then
        match cs' with
        | 'a' :: 'l' :: 's' :: 'e' :: rest => some (Json.bool false, rest)
        | _ => none
      else if c = 'n' then
        match cs' with
        | 'u' :: 'l' :: 'l' :: rest => some (Json.null, rest)
        | _ => none
      else
        match parseNumber (c :: cs') with
        | some (lex, rest) => some (Json.num lex, rest)
        | none => none

/-- Parse the interior of an array (after the opening bracket). -/
def parseArrBody : Nat → List Char → Option (Json × List Char)
  | 0, _ => none
  | Nat.succ fuel, cs =>
    match skipWs cs with
    | ']' :: rest => some (Json.arr [], rest)
    | _ =>
      match parseArrItems fuel cs with
      | some (xs, rest) => some (Json.arr xs, rest)
      | none => none

/-- Parse one-or-more comma-separated array elements up to the closing bracket. -/
def parseArrItems : Nat → List Char → Option (List Json × List Char)
  | 0, _ => none
  | Nat.succ fuel, cs =>
    match parseVal fuel cs with
    | none => none
    | some (v, rest) =>
      match skipWs rest with
      | ',' :: rest2 =>
        match parseArrItems fuel rest2 with
        | some (xs, rest3) => some (v :: xs, rest3)
        | none => none
      | ']' :: rest2 => some ([v], rest2)
      | _ => none

/-- Parse the interior of an object (after the opening brace). -/
def parseObjBody : Nat → List Char → Option (Json × List Char)
  | 0, _ => none
  | Nat.succ fuel, cs =>
    match skipWs cs with
    | '}' :: rest => some (Json.obj [], rest)
    | _ =>
      match parseObjItems fuel cs with
      | some (fs, rest) => some (Json.obj fs, rest)
      | none => none

/-- Parse one-or-more comma-separated object members up to the closing brace. -/
def parseObjItems : Nat → List Char → Option (List (String × Json) × List Char)
  | 0, _ => none
  | Nat.succ fuel, cs =>
    match skipWs cs with
    | '"' :: cs' =>
      match parseStringBody cs' with
      | none => none
      | some (k, rest) =>
        match skipWs rest with
        | ':' :: rest2 =>
          match parseVal fuel rest2 with
          | none => none
          | some (v, rest3) =>
            match skipWs rest3 with
            | ',' :: rest4 =>
              match parseObjItems fuel rest4 with
              | some (fs, rest5) => some ((String.mk k, v) :: fs, rest5)
              | none => none
            | '}' :: rest4 => some ([(String.mk k, v)], rest4)
            | _ => none
        | _ => none
    | _ => none

end

/-- JavaScript `JSON.parse`: parse one value and reject trailing garbage;
`none` models a thrown `SyntaxError`.  The fuel `4 * length + 4` dominates the
recursion depth of any input of that length. -/
def jsonParse (s : String) : Option Json :=
  match parseVal (4 * s.data.length + 4) s.data with
  | some (v, rest) => if (skipWs rest).isEmpty then some v else none
  | none => none

/-- JavaScript `s.split(" ")` on the character list: splits at every single
space and keeps empty segments (so `"a  b ".split(" ") = ["a","","b",""]`). -/
def splitSp : List Char → List (List Char)
  | [] => [[]]
  | c :: cs =>
    if c = ' ' then [] :: splitSp cs
    else
      match splitSp cs with
      | [] => [[c]]
      | w :: ws => (c :: w) :: ws

/-- JavaScript `s.split(" ")`. -/
def jsSplitSpace (s : String) : List String :=
  (splitSp s.data).map String.mk

/-- Prefix test on character lists (JavaScript `String.prototype.startsWith`). -/
def prefixCheck : List Char → List Char → Bool
  | [], _ => true
  | _ :: _, [] => false
  | a :: as, b :: bs => a == b && prefixCheck as bs

/-- JavaScript `s.startsWith(p)`. -/
def strStartsWith (s p : String) : Bool :=
  prefixCheck p.data s.data

/-- An upstream HTTP response: the `ok` flag (`res.ok`, true for 2xx) and the
raw body text. -/
structure HttpResp where
  ok : Bool
  body : String

/-- The upstream world: what the fixed token endpoint and the fixed product
endpoint would respond with for this request. -/
structure Upstream where
  tokenResp : HttpResp
  productsResp : HttpResp

/-- One outbound HTTP call made by the server: the token POST, or the product
GET carrying its `Authorization` header. -/
inductive UpstreamCall where
  | tokenCall : UpstreamCall
  | productCall : String → UpstreamCall

/-- The projected product built by `fetchProducts`: a JavaScript object whose
five keys are copied from the parsed nested payload (`nazwa`, `ocena`, `cena`,
`liczba_sprzedanych`) and from the record's sibling `url`; `none` models a key
holding `undefined`. -/
structure ProjectedProduct where
  nazwa : Option Json
  ocena : Option Json
  cena : Option Json
  liczba_sprzedanych : Option Json
  url : Option Json

/-- Body of a `/sse/tools/call` response: `res.status(s).json({error})` or
`res.json({success: true, products})`. -/
inductive CallBody where
  | errorBody : String → CallBody
  | successBody : List ProjectedProduct → CallBody

/-- `getAccessToken()` from `server.js`: POST the token endpoint (recorded in
the second component; exactly one call, no retry), throw the raw body text on a
non-success status, otherwise parse the body as JSON and return its
`access_token` field (which itself throws if the parsed body is `null`, and is
`undefined` if the field is absent). -/
def getAccessToken (w : Upstream) : Except String (Option Json) × List UpstreamCall :=
  ( if w.tokenResp.ok = true then
      match jsonParse w.tokenResp.body with
      | none => Except.error "SyntaxError: Unexpected token in JSON"
      | some data => jsGet data "access_token"
    else Except.error w.tokenResp.body
  , [UpstreamCall.tokenCall] )

/-- The body of `data.items.map(item => ...)` for one item: parse the nested
`dane_produktu` payload (JavaScript coerces the argument to a string first) and
build the projected object; any throw aborts the whole map. -/
def projectItem (item : Json) : Except String ProjectedProduct :=
  match jsGet item "dane_produktu" with
  | Except.error e => Except.error e
  | Except.ok daneStr =>
    match jsonParse (jsToString daneStr) with
    | none => Except.error "SyntaxError: Unexpected token in JSON"
    | some dane =>
      match jsGet dane "nazwa" with
      | Except.error e => Except.error e
      | Except.ok nazwa =>
        match jsGet dane "ocena" with
        | Except.error e => Except.error e
        | Except.ok ocena =>
          match jsGet dane "cena" with
          | Except.error e => Except.error e
          | Except.ok cena =>
            match jsGet dane "liczba_sprzedanych" with
            | Except.error e => Except.error e
            | Except.ok ls =>
              match jsGet item "url" with
              | Except.error e => Except.error e
              | Except.ok url => Except.ok ⟨nazwa, ocena, cena, ls, url⟩

/-- `data.items.map(...)`: left-to-right, the first thrown error aborts the
whole operation — no partial list survives. -/
def projectItems : List Json → Except String (List ProjectedProduct)
  | [] => Except.ok []
  | item :: rest =>
    match projectItem item with
    | Except.error e => Except.error e
    | Except.ok p =>
      match projectItems rest with
      | Except.error e => Except.error e
      | Except.ok ps => Except.ok (p :: ps)

/-- `fetchProducts(token)` from `server.js`: GET the product endpoint with
`Authorization: Bearer ${token}` (the single call recorded in the second
component), throw the raw body on non-success, parse the body, and map the
projection over `data.items` (throwing if `items` is absent or not an array).
There is no limit parameter and no truncation. -/
def fetchProducts (w : Upstream) (token : Option Json) :
    Except String (List ProjectedProduct) × List UpstreamCall :=
  ( if w.productsResp.ok = true then
      match jsonParse w.productsResp.body with
      | none => Except.error "SyntaxError: Unexpected token in JSON"
      | some data =>
        match jsGet data "items" with
        | Except.error e => Except.error e
        | Except.ok none => Except.error "TypeError: Cannot read properties of undefined"
        | Except.ok (some (Json.arr items)) => projectItems items
        | Except.ok (some _) => Except.error "TypeError: data.items.map is not a function"
    else Except.error w.productsResp.body
  , [UpstreamCall.productCall ("Bearer " ++ jsToString token)] )

/-- The body of the `/sse/tools/call` handler after the auth gate: acquire a
token, fetch the products, answer `{success, products}` with 200, or surface
any thrown error as a 500 JSON error; the second component collects the
outbound calls actually issued. -/
def callPipeline (w : Upstream) : (Nat × CallBody) × List UpstreamCall :=
  match (getAccessToken w).1 with
  | Except.error msg => ((500, CallBody.errorBody msg), (getAccessToken w).2)
  | Except.ok tok =>
    match (fetchProducts w tok).1 with
    | Except.error msg =>
      ((500, CallBody.errorBody msg), (getAccessToken w).2 ++ (fetchProducts w tok).2)
    | Except.ok ps =>
      ((200, CallBody.successBody ps), (getAccessToken w).2 ++ (fetchProducts w tok).2)

/-- The `POST /sse/tools/call` handler: reject with 401 when the
`Authorization` header is missing, empty (JavaScript falsiness) or does not
start with `"Bearer "`; reject with 403 when `authHeader.split(" ")[1]`
differs from the configured `MCP_API_KEY`; otherwise run the upstream
pipeline.  Rejections issue zero upstream calls. -/
def sseToolsCall (key : String) (w : Upstream) (authHeader : Option String) :
    (Nat × CallBody) × List UpstreamCall :=
  match authHeader with
  | none => ((401, CallBody.errorBody "Unauthorized: Missing Bearer token."), [])
  | some h =>
    if h.data.isEmpty || !(strStartsWith h "Bearer ") then
      ((401, CallBody.errorBody "Unauthorized: Missing Bearer token."), [])
    else if (jsSplitSpace h).get? 1 ≠ some key then
      ((403, CallBody.errorBody "Forbidden: Invalid API key."), [])
    else callPipeline w

/-- An inbound HTTP request.  Header names are stored lowercased, as Node
delivers them in `req.headers`; the handler under test never reads the request
body, so it is not modelled. -/
structure Request where
  method : String
  path : String
  headers : List (String × String)

/-- First-match lookup of a (lowercased) header name. -/
def headerLookup (headers : List (String × String)) (name : String) : Option String :=
  (headers.find? (fun p => p.1 == name)).map (fun p => p.2)

/-- JavaScript `x || fallback` on an optional header value: absent and the
empty string are both falsy. -/
def jsOrStr (v : Option String) (fallback : String) : String :=
  match v with
  | some s => if s = "" then fallback else s
  | none => fallback

/-- The JSON body built by the `/mcp/debug` echo handler. -/
structure DebugEcho where
  message : String
  method : String
  origin : String
  contentType : String
  authorization_header : String
  headers : List (String × String)
  note : String

/-- The `/mcp/debug` handler body (`app.all`): echo the caller's method,
origin, content type, authorization header and full header list. -/
def mcpDebugEcho (req : Request) : DebugEcho :=
  ⟨ "✅ MCP Debug Endpoint działa poprawnie."
  , req.method
  , jsOrStr (headerLookup req.headers "origin") "❌ brak nagłówka Origin"
  , jsOrStr (headerLookup req.headers "content-type") "❌ brak Content-Type"
  , jsOrStr (headerLookup req.headers "authorization") "❌ brak nagłówka Authorization"
  , req.headers
  , "Sprawdź, czy Authorization zawiera Twój Bearer token (np. 'Bearer supersekretnyklucz123')." ⟩

/-- The JSON body built by the `POST /mcp/tools/call` debug handler. -/
structure DebugCallEcho where
  message : String
  method : String
  origin : String
  authorization_header : String
  headers : List (String × String)

/-- The `POST /mcp/tools/call` handler body. -/
def mcpToolsCallEcho (req : Request) : DebugCallEcho :=
  ⟨ "✅ MCP Debug tool działa poprawnie i przyjął żądanie."
  , req.method
  , jsOrStr (headerLookup req.headers "origin") "❌ brak nagłówka Origin"
  , jsOrStr (headerLookup req.headers "authorization") "❌ brak nagłówka Authorization"
  , req.headers ⟩

/-- A response produced by the app.  `statusOnly` is `res.sendStatus` (bare
status, no JSON body); `sseToolsList` and `mcpToolsList` are the two static
tool-descriptor JSON bodies (their content is fixed metadata no claim inspects). -/
inductive AppResponse where
  | statusOnly : Nat → AppResponse
  | sseToolsList : AppResponse
  | callResp : Nat → CallBody → AppResponse
  | debugResp : DebugEcho → AppResponse
  | mcpToolsList : AppResponse
  | mcpCallResp : DebugCallEcho → AppResponse
  | textResp : String → AppResponse
  | notFound : AppResponse

/-- The Express app from `server.js`: the CORS middleware answers every
`OPTIONS` request with a bare 200 before any route (and hence before any auth
check or upstream call); other requests are dispatched to the routes in
registration order.  The second component lists the outbound upstream calls
made while handling the request. -/
def handleApp (key : String) (w : Upstream) (req : Request) :
    AppResponse × List UpstreamCall :=
  if req.method = "OPTIONS" then (AppResponse.statusOnly 200, [])
  else if req.path = "/sse/tools/list" ∧ req.method = "GET" then
    (AppResponse.sseToolsList, [])
  else if req.path = "/sse/tools/call" ∧ req.method = "POST" then
    let r := sseToolsCall key w (headerLookup req.headers "authorization")
    (AppResponse.callResp r.1.1 r.1.2, r.2)
  else if req.path = "/mcp/debug" then (AppResponse.debugResp (mcpDebugEcho req), [])
  else if req.path = "/mcp/tools/list" ∧ req.method = "GET" then
    (AppResponse.mcpToolsList, [])
  else if req.path = "/mcp/tools/call" ∧ req.method = "POST" then
    (AppResponse.mcpCallResp (mcpToolsCallEcho req), [])
  else if req.path = "/" ∧ req.method = "GET" then
    (AppResponse.textResp "✅ Oracle APEX MCP Server działa poprawnie i jest gotowy do połączenia z Agent Builderem.", [])
  else (AppResponse.notFound, [])

/-- Claim-side characterisation of the admitted token (for C8): the segment of
the header between the first and the second space character — for a header
starting with `"Bearer "` the first space sits right after `Bearer`, so this is
the part after position 7 up to the next space or the end. -/
def segmentAfterBearer (h : String) : String :=
  String.mk ((h.data.drop 7).takeWhile (fun c => !(c == ' ')))

/-! ### Helper lemmas -/

/-- The characters of `"Bearer "`. -/
def bearerChars : List Char := ['B', 'e', 'a', 'r', 'e', 'r', ' ']

theorem bearer_data : "Bearer ".data = bearerChars := rfl

theorem strData_append (a b : String) : (a ++ b).data = a.data ++ b.data := by
  cases a
  cases b
  rfl

theorem strMk_data (s : String) : String.mk s.data = s := by
  cases s
  rfl

theorem prefixCheck_iff (p s : List Char) :
    prefixCheck p s = true ↔ ∃ t, s = p ++ t := by
  induction p generalizing s with
  | nil => simp [prefixCheck]
  | cons a as ih =>
    cases s with
    | nil => simp [prefixCheck]
    | cons b bs =>
      simp only [prefixCheck, Bool.and_eq_true, beq_iff_eq, ih, List.cons_append,
        List.cons.injEq]
      constructor
      · rintro ⟨hab, t, ht⟩
        exact ⟨t, hab.symm, ht⟩
      · rintro ⟨t, hab, ht⟩
        exact ⟨hab.symm, t, ht⟩

theorem splitSp_ne_nil_head (cs : List Char) :
    ∃ ws, splitSp cs = cs.takeWhile (fun c => !(c == ' ')) :: ws := by
  induction cs with
  | nil => exact ⟨[], rfl⟩
  | cons c cs ih =>
    by_cases hc : c = ' '
    · subst hc
      exact ⟨splitSp cs, by simp [splitSp, List.takeWhile]⟩
    · obtain ⟨ws, hws⟩ := ih
      refine ⟨ws, ?_⟩
      have hb : (!(c == ' ')) = true := by simp [hc]
      simp only [splitSp, if_neg hc, hws, List.takeWhile, hb]

theorem splitSp_bearer (rest : List Char) :
    splitSp (bearerChars ++ rest) = ['B', 'e', 'a', 'r', 'e', 'r'] :: splitSp rest := by
  obtain ⟨ws, hws⟩ := splitSp_ne_nil_head rest
  simp [bearerChars, splitSp, hws]

theorem jsSplit_get1 (h : String) (rest : List Char) (hd : h.data = bearerChars ++ rest) :
    (jsSplitSpace h).get? 1 =
      some (String.mk (rest.takeWhile (fun c => !(c == ' ')))) := by
  obtain ⟨ws, hws⟩ := splitSp_ne_nil_head rest
  simp [jsSplitSpace, hd, splitSp_bearer, hws]

theorem segmentAfterBearer_eq (h : String) (rest : List Char)
    (hd : h.data = bearerChars ++ rest) :
    segmentAfterBearer h = String.mk (rest.takeWhile (fun c => !(c == ' '))) := by
  have hlen : bearerChars.length = 7 := rfl
  simp only [segmentAfterBearer, hd]
  rw [show (7 : Nat) = bearerChars.length from rfl, List.drop_left]

theorem takeWhile_nospace (l : List Char) (h : ' ' ∉ l) :
    l.takeWhile (fun c => !(c == ' ')) = l := by
  induction l with
  | nil => rfl
  | cons c cs ih =>
    have hc : ¬ c = ' ' := fun he => h (he ▸ List.mem_cons_self c cs)
    have hb : (!(c == ' ')) = true := by simp [hc]
    simp only [List.takeWhile, hb, List.cons.injEq, true_and]
    exact ih (fun hm => h (List.mem_cons_of_mem c hm))

theorem takeWhile_nospace_append (l t : List Char) (h : ' ' ∉ l) :
    (l ++ ' ' :: t).takeWhile (fun c => !(c == ' ')) = l := by
  induction l with
  | nil => simp [List.takeWhile]
  | cons c cs ih =>
    have hc : ¬ c = ' ' := fun he => h (he ▸ List.mem_cons_self c cs)
    have hb : (!(c == ' ')) = true := by simp [hc]
    simp only [List.cons_append, List.takeWhile, hb, List.cons.injEq, true_and]
    exact ih (fun hm => h (List.mem_cons_of_mem c hm))

theorem getAccessToken_snd (w : Upstream) :
    (getAccessToken w).2 = [UpstreamCall.tokenCall] := rfl

theorem fetchProducts_snd (w : Upstream) (tok : Option Json) :
    (fetchProducts w tok).2 = [UpstreamCall.productCall ("Bearer " ++ jsToString tok)] := rfl

theorem callPipeline_snd_ne_nil (w : Upstream) : (callPipeline w).2 ≠ [] := by
  unfold callPipeline
  cases h : (getAccessToken w).1 with
  | error msg => simp [getAccessToken_snd]
  | ok tok =>
    cases h2 : (fetchProducts w tok).1 <;> simp [h2, getAccessToken_snd]

theorem sseToolsCall_some (key : String) (w : Upstream) (h : String) :
    sseToolsCall key w (some h) =
      if h.data.isEmpty || !(strStartsWith h "Bearer ") then
        ((401, CallBody.errorBody "Unauthorized: Missing Bearer token."), [])
      else if (jsSplitSpace h).get? 1 ≠ some key then
        ((403, CallBody.errorBody "Forbidden: Invalid API key."), [])
      else callPipeline w := rfl

theorem sseToolsCall_admitted (key h : String) (w : Upstream)
    (hpre : strStartsWith h "Bearer " = true) (hseg : segmentAfterBearer h = key) :
    sseToolsCall key w (some h) = callPipeline w := by
  obtain ⟨t, ht⟩ := (prefixCheck_iff "Bearer ".data h.data).mp hpre
  rw [bearer_data] at ht
  have hne : h.data.isEmpty = false := by rw [ht]; rfl
  have htok : (jsSplitSpace h).get? 1 = some key := by
    rw [jsSplit_get1 h t ht, ← segmentAfterBearer_eq h t ht, hseg]
  rw [sseToolsCall_some key w h, if_neg (by simp [hne, hpre]),
    if_neg (by rw [htok]; simp)]

theorem sseToolsCall_rejected (key h : String) (w : Upstream)
    (hrej : ¬ (strStartsWith h "Bearer " = true ∧ segmentAfterBearer h = key)) :
    sseToolsCall key w (some h) =
        ((401, CallBody.errorBody "Unauthorized: Missing Bearer token."), []) ∨
      sseToolsCall key w (some h) =
        ((403, CallBody.errorBody "Forbidden: Invalid API key."), []) := by
  by_cases hpre : strStartsWith h "Bearer " = true
  · right
    have hseg : ¬ segmentAfterBearer h = key := fun hs => hrej ⟨hpre, hs⟩
    obtain ⟨t, ht⟩ := (prefixCheck_iff "Bearer ".data h.data).mp hpre
    rw [bearer_data] at ht
    have hne : h.data.isEmpty = false := by rw [ht]; rfl
    have htok : (jsSplitSpace h).get? 1 = some (segmentAfterBearer h) := by
      rw [jsSplit_get1 h t ht, ← segmentAfterBearer_eq h t ht]
    rw [sseToolsCall_some key w h, if_neg (by simp [hne, hpre]),
      if_pos (by rw [htok]; simpa using hseg)]
  · left
    have hb : strStartsWith h "Bearer " = false := by
      cases hsw : strStartsWith h "Bearer " with
      | true => exact absurd hsw hpre
      | false => rfl
    rw [sseToolsCall_some key w h, if_pos (by simp [hb])]

theorem sseToolsCall_admit_iff (key h : String) (w : Upstream) :
    sseToolsCall key w (some h) = callPipeline w ↔
      (strStartsWith h "Bearer " = true ∧ segmentAfterBearer h = key) := by
  constructor
  · intro he
    by_contra hrej
    rcases sseToolsCall_rejected key h w hrej with hr | hr <;>
    · rw [hr] at he
      exact callPipeline_snd_ne_nil w (congrArg Prod.snd he).symm
  · rintro ⟨hpre, hseg⟩
    exact sseToolsCall_admitted key h w hpre hseg

theorem projectItem_error_of_malformed (i : Json) (s : String)
    (h1 : jsGet i "dane_produktu" = Except.ok (some (Json.str s)))
    (h2 : jsonParse s = none) :
    projectItem i = Except.error "SyntaxError: Unexpected token in JSON" := by
  unfold projectItem
  rw [h1]
  show (match jsonParse (jsToString (some (Json.str s))) with
    | none => Except.error "SyntaxError: Unexpected token in JSON"
    | some dane => _) = _
  rw [show jsToString (some (Json.str s)) = s from rfl, h2]

theorem projectItems_error_of_mem (items : List Json) (i : Json) (hi : i ∈ items)
    (e : String) (he : projectItem i = Except.error e) :
    ∃ m, projectItems items = Except.error m := by
  induction items with
  | nil => cases hi
  | cons a rest ih =>
    cases hpa : projectItem a with
    | error m => exact ⟨m, by simp [projectItems, hpa]⟩
    | ok p =>
      rcases List.mem_cons.mp hi with rfl | hmem
      · rw [hpa] at he
        cases he
      · obtain ⟨m, hm⟩ := ih hmem
        exact ⟨m, by simp [projectItems, hpa, hm]⟩

theorem projectItems_ok_mem (items : List Json) (ps : List ProjectedProduct)
    (h : projectItems items = Except.ok ps) :
    ∀ p ∈ ps, ∃ i ∈ items, projectItem i = Except.ok p := by
  induction items generalizing ps with
  | nil =>
    cases h
    intro p hp
    cases hp
  | cons a rest ih =>
    cases hpa : projectItem a with
    | error m => simp [projectItems, hpa] at h
    | ok p0 =>
      cases hpr : projectItems rest with
      | error m => simp [projectItems, hpa, hpr] at h
      | ok ps' =>
        simp only [projectItems, hpa, hpr] at h
        cases h
        intro p hp
        rcases List.mem_cons.mp hp with rfl | hmem
        · exact ⟨a, List.mem_cons_self a rest, hpa⟩
        · obtain ⟨i, hi, hio⟩ := ih ps' hpr p hmem
          exact ⟨i, List.mem_cons_of_mem a hi, hio⟩

theorem projectItem_ok_parse (i : Json) (p : ProjectedProduct)
    (h : projectItem i = Except.ok p) :
    ∃ d dane, jsGet i "dane_produktu" = Except.ok d ∧
      jsonParse (jsToString d) = some dane := by
  cases hd : jsGet i "dane_produktu" with
  | error e => simp [projectItem, hd] at h
  | ok d =>
    cases hp : jsonParse (jsToString d) with
    | none => simp [projectItem, hd, hp] at h
    | some dane => exact ⟨d, dane, rfl, hp⟩

theorem projectItems_ok_forall2 (items : List Json) (ps : List ProjectedProduct)
    (h : projectItems items = Except.ok ps) :
    List.Forall₂ (fun i p => projectItem i = Except.ok p) items ps := by
  induction items generalizing ps with
  | nil =>
    cases h
    exact List.Forall₂.nil
  | cons a rest ih =>
    cases hpa : projectItem a with
    | error m => simp [projectItems, hpa] at h
    | ok p0 =>
      cases hpr : projectItems rest with
      | error m => simp [projectItems, hpa, hpr] at h
      | ok ps' =>
        simp only [projectItems, hpa, hpr] at h
        cases h
        exact List.Forall₂.cons hpa (ih ps' hpr)

theorem fetchProducts_items (w : Upstream) (tok : Option Json) (data : Json)
    (items : List Json) (hok : w.productsResp.ok = true)
    (hbody : jsonParse w.productsResp.body = some data)
    (hitems : jsGet data "items" = Except.ok (some (Json.arr items))) :
    (fetchProducts w tok).1 = projectItems items := by
  simp [fetchProducts, hok, hbody, hitems]

theorem callPipeline_tok (w : Upstream) (tok : Option Json)
    (htok : (getAccessToken w).1 = Except.ok tok) :
    callPipeline w =
      match (fetchProducts w tok).1 with
      | Except.error msg =>
        ((500, CallBody.errorBody msg), (getAccessToken w).2 ++ (fetchProducts w tok).2)
      | Except.ok ps =>
        ((200, CallBody.successBody ps), (getAccessToken w).2 ++ (fetchProducts w tok).2) := by
  unfold callPipeline
  rw [htok]

theorem callPipeline_error (w : Upstream) (tok : Option Json) (e : String)
    (htok : (getAccessToken w).1 = Except.ok tok)
    (hf : (fetchProducts w tok).1 = Except.error e) :
    callPipeline w = ((500, CallBody.errorBody e),
      (getAccessToken w).2 ++ (fetchProducts w tok).2) := by
  rw [callPipeline_tok w tok htok, hf]

theorem callPipeline_ok (w : Upstream) (tok : Option Json)
    (ps : List ProjectedProduct)
    (htok : (getAccessToken w).1 = Except.ok tok)
    (hf : (fetchProducts w tok).1 = Except.ok ps) :
    callPipeline w = ((200, CallBody.successBody ps),
      (getAccessToken w).2 ++ (fetchProducts w tok).2) := by
  rw [callPipeline_tok w tok htok, hf]

/-! ### Concrete fixtures used by counterexamples and witnesses -/

/-- A small healthy upstream: token `"t"`, empty product listing. -/
def wSmall : Upstream :=
  ⟨⟨true, "\x7b\"access_token\":\"t\"\x7d"⟩, ⟨true, "\x7b\"items\":[]\x7d"⟩⟩

/-- The end-to-end scenario upstream of the spec: token `"tok123"`, one record
whose nested payload is the Widget object and whose sibling `url` is
`http://x`. -/
def wScenario : Upstream :=
  ⟨⟨true, "\x7b\"access_token\":\"tok123\"\x7d"⟩,
   ⟨true, "\x7b\"items\":[\x7b\"dane_produktu\":\"\x7b\\\"nazwa\\\":\\\"Widget\\\",\\\"cena\\\":\\\"9.99\\\",\\\"ocena\\\":\\\"4.5\\\"\x7d\",\"url\":\"http://x\"\x7d]\x7d"⟩⟩

/-- An upstream with a two-record listing (payloads `A` and `B`). -/
def wTwo : Upstream :=
  ⟨⟨true, "\x7b\"access_token\":\"t\"\x7d"⟩,
   ⟨true, "\x7b\"items\":[\x7b\"dane_produktu\":\"\x7b\\\"nazwa\\\":\\\"A\\\"\x7d\",\"url\":\"u1\"\x7d,\x7b\"dane_produktu\":\"\x7b\\\"nazwa\\\":\\\"B\\\"\x7d\",\"url\":\"u2\"\x7d]\x7d"⟩⟩

/-- An upstream whose single record carries the malformed nested payload `"{"`. -/
def wMalformed : Upstream :=
  ⟨⟨true, "\x7b\"access_token\":\"t\"\x7d"⟩,
   ⟨true, "\x7b\"items\":[\x7b\"dane_produktu\":\"\x7b\",\"url\":\"u\"\x7d]\x7d"⟩⟩

/-- An upstream whose token endpoint succeeds with a body carrying no
`access_token` field. -/
def wNoTok : Upstream := ⟨⟨true, "\x7b\x7d"⟩, ⟨false, "x"⟩⟩

/-- The single malformed-payload record of `wMalformed`, as parsed. -/
def itemMalformed : Json :=
  Json.obj [("dane_produktu", Json.str "\x7b"), ("url", Json.str "u")]

/-- The two records of `wTwo`, as parsed. -/
def itemA : Json :=
  Json.obj [("dane_produktu", Json.str "\x7b\"nazwa\":\"A\"\x7d"), ("url", Json.str "u1")]

/-- Second record of `wTwo`. -/
def itemB : Json :=
  Json.obj [("dane_produktu", Json.str "\x7b\"nazwa\":\"B\"\x7d"), ("url", Json.str "u2")]

/-- A record whose nested payload is the string `"null"` — valid JSON whose
parse result is `null`. -/
def itemNull : Json :=
  Json.obj [("dane_produktu", Json.str "null"), ("url", Json.str "http://x")]

/-- A record whose nested payload is the empty object. -/
def itemEmptyPayload : Json :=
  Json.obj [("dane_produktu", Json.str "\x7b\x7d"), ("url", Json.str "u")]

/-- The product actually produced by the end-to-end scenario: the three payload
fields plus `liczba_sprzedanych = undefined` and the record's `url`. -/
def prodWidget : ProjectedProduct :=
  ⟨some (Json.str "Widget"), some (Json.str "4.5"), some (Json.str "9.99"),
   none, some (Json.str "http://x")⟩

/-- The bare three-field object the spec scenario claims as the result
(no `url`, no `liczba_sprzedanych`). -/
def prodClaimed : ProjectedProduct :=
  ⟨some (Json.str "Widget"), some (Json.str "4.5"), some (Json.str "9.99"),
   none, none⟩

/-! ### Claims -/

/-- C1, counterexample: the claim says every `Authorization` header other than
exactly `"Bearer " ++ key` — explicitly including one with trailing whitespace —
is rejected with 401/403 and zero upstream calls.  With key `"k"`, the header
`"Bearer k "` (trailing space, hence not the exact header) is admitted: the
handler answers 200 and issues both upstream calls. -/
theorem c1_trailing_space_admitted :
    ("Bearer k " ≠ "Bearer " ++ "k") ∧
    sseToolsCall "k" wSmall (some "Bearer k ") =
      ((200, CallBody.successBody []),
        [UpstreamCall.tokenCall, UpstreamCall.productCall "Bearer t"]) :=
  ⟨by decide, rfl⟩

/-- C1, amended: for a configured key containing no space, a request whose
header is exactly `"Bearer " ++ key` is admitted (it runs the full pipeline);
a request with no `Authorization` header is rejected with a 401 JSON error and
zero upstream calls; and a request whose header either does not start with
`"Bearer "` or whose segment between the first and second space differs from
the key is rejected with a 401 or 403 JSON error and zero upstream calls.
(Headers that pass that split-based test — e.g. the exact key followed by
trailing whitespace or extra content — are admitted, contrary to the original
claim.) -/
theorem c1_auth_gate_amended (key : String) (w : Upstream) (hk : ' ' ∉ key.data) :
    sseToolsCall key w (some ("Bearer " ++ key)) = callPipeline w ∧
    sseToolsCall key w none =
      ((401, CallBody.errorBody "Unauthorized: Missing Bearer token."), []) ∧
    (∀ h : String,
      ¬ (strStartsWith h "Bearer " = true ∧ segmentAfterBearer h = key) →
      ((sseToolsCall key w (some h)).1.1 = 401 ∨ (sseToolsCall key w (some h)).1.1 = 403) ∧
      (∃ m, (sseToolsCall key w (some h)).1.2 = CallBody.errorBody m) ∧
      (sseToolsCall key w (some h)).2 = []) := by
  refine ⟨?_, rfl, ?_⟩
  · have hdata : ("Bearer " ++ key).data = bearerChars ++ key.data := by
      rw [strData_append, bearer_data]
    have hpre : strStartsWith ("Bearer " ++ key) "Bearer " = true :=
      (prefixCheck_iff "Bearer ".data ("Bearer " ++ key).data).mpr
        ⟨key.data, by rw [hdata, bearer_data]⟩
    have hseg : segmentAfterBearer ("Bearer " ++ key) = key := by
      rw [segmentAfterBearer_eq ("Bearer " ++ key) key.data hdata,
        takeWhile_nospace key.data hk, strMk_data]
    exact sseToolsCall_admitted key ("Bearer " ++ key) w hpre hseg
  · intro h hrej
    rcases sseToolsCall_rejected key h w hrej with hr | hr <;>
      rw [hr]
    · exact ⟨Or.inl rfl, ⟨"Unauthorized: Missing Bearer token.", rfl⟩, rfl⟩
    · exact ⟨Or.inr rfl, ⟨"Forbidden: Invalid API key.", rfl⟩, rfl⟩

/-- C1 witness: at the concrete key `"k"` (no space) the amended theorem's
hypothesis holds and the exact header is admitted. -/
theorem c1_auth_gate_amended_witness :
    (' ' ∉ "k".data) ∧
    sseToolsCall "k" wSmall (some ("Bearer " ++ "k")) = callPipeline wSmall :=
  ⟨by decide, (c1_auth_gate_amended "k" wSmall (by decide)).1⟩

/-- C2, confirmed: given an upstream whose token step succeeds and whose
product body parses to an object with an `items` array, (i) if some item's
nested `dane_produktu` string is malformed JSON then the whole `fetchProducts`
call fails and the handler surfaces a 500 JSON error — no partial list; and
(ii) every product of a successful result originates from a record whose
nested payload string parsed successfully. -/
theorem c2_malformed_payload_fails_whole (w : Upstream) (tok : Option Json)
    (data : Json) (items : List Json)
    (htok : (getAccessToken w).1 = Except.ok tok)
    (hok : w.productsResp.ok = true)
    (hbody : jsonParse w.productsResp.body = some data)
    (hitems : jsGet data "items" = Except.ok (some (Json.arr items))) :
    ((∃ i ∈ items, ∃ s, jsGet i "dane_produktu" = Except.ok (some (Json.str s)) ∧
        jsonParse s = none) →
      ∃ e, (fetchProducts w tok).1 = Except.error e ∧
        callPipeline w = ((500, CallBody.errorBody e),
          (getAccessToken w).2 ++ (fetchProducts w tok).2)) ∧
    (∀ ps, (fetchProducts w tok).1 = Except.ok ps →
      ∀ p ∈ ps, ∃ i ∈ items, projectItem i = Except.ok p ∧
        ∃ d dane, jsGet i "dane_produktu" = Except.ok d ∧
          jsonParse (jsToString d) = some dane) := by
  have hfp : (fetchProducts w tok).1 = projectItems items :=
    fetchProducts_items w tok data items hok hbody hitems
  constructor
  · rintro ⟨i, hi, s, hds, hmal⟩
    obtain ⟨e, he⟩ := projectItems_error_of_mem items i hi _
      (projectItem_error_of_malformed i s hds hmal)
    have hfe : (fetchProducts w tok).1 = Except.error e := by rw [hfp, he]
    exact ⟨e, hfe, callPipeline_error w tok e htok hfe⟩
  · intro ps hps p hp
    obtain ⟨i, hi, hio⟩ := projectItems_ok_mem items ps (by rw [← hfp, hps]) p hp
    obtain ⟨d, dane, hd, hdp⟩ := projectItem_ok_parse i p hio
    exact ⟨i, hi, hio, d, dane, hd, hdp⟩

/-- C2 witness: the concrete malformed world `wMalformed` satisfies all
hypotheses, and the conclusion yields the 500 surfaced failure. -/
theorem c2_malformed_payload_fails_whole_witness :
    ((getAccessToken wMalformed).1 = Except.ok (some (Json.str "t"))) ∧
    (∃ e, (fetchProducts wMalformed (some (Json.str "t"))).1 = Except.error e ∧
      callPipeline wMalformed = ((500, CallBody.errorBody e),
        (getAccessToken wMalformed).2 ++
          (fetchProducts wMalformed (some (Json.str "t"))).2)) :=
  ⟨rfl,
    (c2_malformed_payload_fails_whole wMalformed (some (Json.str "t"))
      (Json.obj [("items", Json.arr [itemMalformed])]) [itemMalformed]
      rfl rfl rfl rfl).1
    ⟨itemMalformed, List.mem_cons_self itemMalformed [], "\x7b", rfl, rfl⟩⟩

/-- C3, counterexample: the claim says `fetchProducts(n)` returns at most `n`
products.  The source's `fetchProducts` has no limit parameter (its argument is
the bearer token): invoked as `fetchProducts(1)` against a two-record listing
it returns both products, and `2 ≤ 1` is false. -/
theorem c3_no_truncation_counterexample :
    (fetchProducts wTwo (some (Json.num "1"))).1 =
      Except.ok
        [⟨some (Json.str "A"), none, none, none, some (Json.str "u1")⟩,
         ⟨some (Json.str "B"), none, none, none, some (Json.str "u2")⟩] ∧
    ¬ ((2 : Nat) ≤ 1) :=
  ⟨rfl, by decide⟩

/-- C3, amended: `fetchProducts` takes no limit and performs no truncation: it
returns the projection of the full upstream `items` listing, and a successful
result has exactly one product per item, in the same relative order (the i-th
product is the projection of the i-th item). -/
theorem c3_full_listing_in_order (w : Upstream) (tok : Option Json)
    (data : Json) (items : List Json)
    (hok : w.productsResp.ok = true)
    (hbody : jsonParse w.productsResp.body = some data)
    (hitems : jsGet data "items" = Except.ok (some (Json.arr items))) :
    (fetchProducts w tok).1 = projectItems items ∧
    (∀ ps, projectItems items = Except.ok ps →
      List.Forall₂ (fun i p => projectItem i = Except.ok p) items ps ∧
      ps.length = items.length) := by
  refine ⟨fetchProducts_items w tok data items hok hbody hitems, ?_⟩
  intro ps hps
  have hf := projectItems_ok_forall2 items ps hps
  exact ⟨hf, hf.length_eq.symm⟩

/-- C3 witness: the two-record world satisfies the hypotheses and the result
is the projection of its two items. -/
theorem c3_full_listing_in_order_witness :
    (jsonParse wTwo.productsResp.body =
      some (Json.obj [("items", Json.arr [itemA, itemB])])) ∧
    (fetchProducts wTwo (some (Json.num "1"))).1 = projectItems [itemA, itemB] :=
  ⟨rfl,
    (c3_full_listing_in_order wTwo (some (Json.num "1"))
      (Json.obj [("items", Json.arr [itemA, itemB])]) [itemA, itemB]
      rfl rfl rfl).1⟩

/-- C4, counterexample: in the end-to-end scenario the relay pipeline yields
exactly one product, but that product is not equal to the bare three-field
object `{nazwa, cena, ocena}` claimed: it additionally carries the record's
`url` (`http://x`), so the two objects differ. -/
theorem c4_scenario_counterexample :
    callPipeline wScenario =
      ((200, CallBody.successBody [prodWidget]),
        [UpstreamCall.tokenCall, UpstreamCall.productCall "Bearer tok123"]) ∧
    prodWidget ≠ prodClaimed :=
  ⟨rfl, fun h => Option.noConfusion (congrArg ProjectedProduct.url h)⟩

/-- C4, amended: in the end-to-end scenario (token `tok123`, one Widget
record), the relay yields exactly one product, whose `nazwa` is `Widget`,
`ocena` is `4.5`, `cena` is `9.99`, `liczba_sprzedanych` is undefined and
`url` is `http://x` (the request's `limit` argument is never read by the
handler, so limit 5 is ignored). -/
theorem c4_scenario_result :
    callPipeline wScenario =
      ((200, CallBody.successBody [prodWidget]),
        [UpstreamCall.tokenCall, UpstreamCall.productCall "Bearer tok123"]) ∧
    prodWidget.nazwa = some (Json.str "Widget") ∧
    prodWidget.cena = some (Json.str "9.99") ∧
    prodWidget.ocena = some (Json.str "4.5") ∧
    prodWidget.liczba_sprzedanych = none ∧
    prodWidget.url = some (Json.str "http://x") :=
  ⟨rfl, rfl, rfl, rfl, rfl, rfl⟩

/-- C5, confirmed: for every token-endpoint response, a non-success status
makes `getAccessToken` fail with the raw response body as the error text and
never yields a token; a success status makes it parse the body as JSON and
return the body's `access_token` field access; and it issues exactly one token
request — no retry — in every case. -/
theorem c5_token_acquisition (w : Upstream) :
    (w.tokenResp.ok = false →
      (getAccessToken w).1 = Except.error w.tokenResp.body) ∧
    (∀ d, w.tokenResp.ok = true → jsonParse w.tokenResp.body = some d →
      (getAccessToken w).1 = jsGet d "access_token") ∧
    (getAccessToken w).2 = [UpstreamCall.tokenCall] := by
  refine ⟨?_, ?_, rfl⟩
  · intro hok
    simp [getAccessToken, hok]
  · intro d hok hparse
    simp [getAccessToken, hok, hparse]

/-- C5 witness: a concrete denied upstream (`ok = false`, body `denied`)
fails with exactly that body text. -/
theorem c5_token_acquisition_witness :
    (Upstream.mk ⟨false, "denied"⟩ ⟨false, ""⟩).tokenResp.ok = false ∧
    (getAccessToken (Upstream.mk ⟨false, "denied"⟩ ⟨false, ""⟩)).1 =
      Except.error "denied" :=
  ⟨rfl, (c5_token_acquisition (Upstream.mk ⟨false, "denied"⟩ ⟨false, ""⟩)).1 rfl⟩

/-- An `OPTIONS` request to the invocation route, carrying a wrong key. -/
def reqOptions : Request :=
  ⟨"OPTIONS", "/sse/tools/call", [("authorization", "Bearer wrong")]⟩

/-- An `OPTIONS` request to the diagnostic route. -/
def reqDebugOptions : Request := ⟨"OPTIONS", "/mcp/debug", [("origin", "http://o")]⟩

/-- A `GET` request to the diagnostic route with some headers. -/
def reqDebugGet : Request :=
  ⟨"GET", "/mcp/debug", [("origin", "http://o"), ("authorization", "Bearer z")]⟩

/-- C6, confirmed: every inbound `OPTIONS` request — to any route, under any
key and any upstream — is answered by the CORS middleware with a bare success
status and no body, before any route, auth check or upstream call runs: the
response is `statusOnly 200` and the outbound call list is empty. -/
theorem c6_options_short_circuit (key : String) (w : Upstream) (req : Request)
    (hm : req.method = "OPTIONS") :
    handleApp key w req = (AppResponse.statusOnly 200, []) := by
  unfold handleApp
  rw [if_pos hm]

/-- C6 witness: a concrete `OPTIONS` request to the gated invocation route
with a wrong key still gets the bare 200 and no upstream calls. -/
theorem c6_options_short_circuit_witness :
    reqOptions.method = "OPTIONS" ∧
    handleApp "k" wSmall reqOptions = (AppResponse.statusOnly 200, []) :=
  ⟨rfl, c6_options_short_circuit "k" wSmall reqOptions rfl⟩

/-- C7, counterexample: the claim says `/mcp/debug` echoes for any HTTP
method, but an `OPTIONS` request to `/mcp/debug` is intercepted by the CORS
middleware and answered with a bare 200 — it is not the echo response. -/
theorem c7_options_not_echoed :
    handleApp "k" wSmall reqDebugOptions = (AppResponse.statusOnly 200, []) ∧
    handleApp "k" wSmall reqDebugOptions ≠
      (AppResponse.debugResp (mcpDebugEcho reqDebugOptions), []) :=
  ⟨rfl, fun h => AppResponse.noConfusion (congrArg Prod.fst h)⟩

/-- C7, amended: for every request to `/mcp/debug` whose method is not
`OPTIONS` (any other method, any headers, any key, any upstream), the response
is the diagnostic echo — carrying the caller's method, full header list and
origin — with no upstream call and no authorization check (the result does not
depend on the configured key). -/
theorem c7_debug_echo (key : String) (w : Upstream) (req : Request)
    (hp : req.path = "/mcp/debug") (hm : ¬ req.method = "OPTIONS") :
    handleApp key w req = (AppResponse.debugResp (mcpDebugEcho req), []) ∧
    (mcpDebugEcho req).method = req.method ∧
    (mcpDebugEcho req).headers = req.headers ∧
    (mcpDebugEcho req).origin =
      jsOrStr (headerLookup req.headers "origin") "❌ brak nagłówka Origin" := by
  unfold handleApp
  rw [if_neg hm,
    if_neg (fun hc => absurd (hp ▸ hc.1) (by decide)),
    if_neg (fun hc => absurd (hp ▸ hc.1) (by decide)),
    if_pos hp]
  exact ⟨rfl, rfl, rfl, rfl⟩

/-- C7 witness: a concrete `GET` to `/mcp/debug` produces the echo carrying
its own headers, with zero upstream calls. -/
theorem c7_debug_echo_witness :
    reqDebugGet.path = "/mcp/debug" ∧ ¬ reqDebugGet.method = "OPTIONS" ∧
    handleApp "k" wSmall reqDebugGet =
      (AppResponse.debugResp (mcpDebugEcho reqDebugGet), []) :=
  ⟨rfl, by decide, (c7_debug_echo "k" wSmall reqDebugGet rfl (by decide)).1⟩

/-- C8, confirmed: the invocation gate admits a request (i.e. the handler
result is exactly the full upstream pipeline) if and only if the header starts
with `"Bearer "` and the segment between the first and the second space equals
the configured key; in particular, for a key containing no space, every header
of the form `"Bearer " ++ key ++ " " ++ s` — the key followed by a space and
arbitrary extra content — is admitted and triggers the full pipeline. -/
theorem c8_gate_split_characterization (key h s : String) (w : Upstream)
    (hk : ' ' ∉ key.data) :
    (sseToolsCall key w (some h) = callPipeline w ↔
      (strStartsWith h "Bearer " = true ∧ segmentAfterBearer h = key)) ∧
    sseToolsCall key w (some ("Bearer " ++ key ++ " " ++ s)) = callPipeline w := by
  refine ⟨sseToolsCall_admit_iff key h w, ?_⟩
  have hdata : ("Bearer " ++ key ++ " " ++ s).data =
      bearerChars ++ (key.data ++ ' ' :: s.data) := by
    simp [strData_append, bearer_data, bearerChars]
  have hpre : strStartsWith ("Bearer " ++ key ++ " " ++ s) "Bearer " = true :=
    (prefixCheck_iff "Bearer ".data ("Bearer " ++ key ++ " " ++ s).data).mpr
      ⟨key.data ++ ' ' :: s.data, by rw [hdata, bearer_data]⟩
  have hseg : segmentAfterBearer ("Bearer " ++ key ++ " " ++ s) = key := by
    rw [segmentAfterBearer_eq ("Bearer " ++ key ++ " " ++ s)
        (key.data ++ ' ' :: s.data) hdata,
      takeWhile_nospace_append key.data s.data hk, strMk_data]
  exact sseToolsCall_admitted key ("Bearer " ++ key ++ " " ++ s) w hpre hseg

/-- C8 witness: with the space-free key `"secret"`, the header
`"Bearer secret x"` (extra content after the key) is admitted and runs the
full pipeline. -/
theorem c8_gate_split_characterization_witness :
    (' ' ∉ "secret".data) ∧
    sseToolsCall "secret" wSmall (some ("Bearer " ++ "secret" ++ " " ++ "x")) =
      callPipeline wSmall :=
  ⟨by decide,
    (c8_gate_split_characterization "secret" "Bearer secret" "x" wSmall
      (by decide)).2⟩

/-- C9, counterexample: the claim says the projection never fails on any item
whose `dane_produktu` string parses as JSON.  The string `"null"` parses as
JSON (to `null`), yet the projection of a record carrying it throws a
`TypeError` (reading `.nazwa` of `null`), failing the request. -/
theorem c9_null_payload_throws :
    jsonParse "null" = some Json.null ∧
    projectItem itemNull =
      Except.error "TypeError: Cannot read properties of null" :=
  ⟨rfl, rfl⟩

/-- C9, amended: for every upstream item whose `dane_produktu` string parses
as JSON to a non-`null` value, the projection never fails: it yields the
product whose five keys are the payload's `nazwa`, `ocena`, `cena`,
`liczba_sprzedanych` field accesses (each `undefined` when absent) and the
record's sibling `url`. -/
theorem c9_projection_total (item : Json) (s : String) (dane : Json)
    (hd : jsGet item "dane_produktu" = Except.ok (some (Json.str s)))
    (hp : jsonParse s = some dane) (hnn : dane ≠ Json.null) :
    projectItem item = Except.ok
      ⟨jsField dane "nazwa", jsField dane "ocena", jsField dane "cena",
       jsField dane "liczba_sprzedanych", jsField item "url"⟩ := by
  cases item with
  | null => exact absurd hd (by simp [jsGet])
  | bool b => exact absurd hd (by simp [jsGet])
  | num lex => exact absurd hd (by simp [jsGet])
  | str t => exact absurd hd (by simp [jsGet])
  | arr xs => exact absurd hd (by simp [jsGet])
  | obj fs =>
    have hlook : jsLookup fs "dane_produktu" = some (Json.str s) := by
      simpa [jsGet] using hd
    cases dane with
    | null => exact absurd rfl hnn
    | bool b => simp [projectItem, hlook, jsToString, hp, jsGet, jsField]
    | num lex => simp [projectItem, hlook, jsToString, hp, jsGet, jsField]
    | str t => simp [projectItem, hlook, jsToString, hp, jsGet, jsField]
    | arr xs => simp [projectItem, hlook, jsToString, hp, jsGet, jsField]
    | obj gs => simp [projectItem, hlook, jsToString, hp, jsGet, jsField]

/-- C9 witness: a record whose payload is the empty object `"{}"` projects to
a product with all payload keys `undefined` and the record's `url`. -/
theorem c9_projection_total_witness :
    jsGet itemEmptyPayload "dane_produktu" =
      Except.ok (some (Json.str "\x7b\x7d")) ∧
    jsonParse "\x7b\x7d" = some (Json.obj []) ∧
    Json.obj ([] : List (String × Json)) ≠ Json.null ∧
    projectItem itemEmptyPayload = Except.ok
      ⟨jsField (Json.obj []) "nazwa", jsField (Json.obj []) "ocena",
       jsField (Json.obj []) "cena", jsField (Json.obj []) "liczba_sprzedanych",
       jsField itemEmptyPayload "url"⟩ :=
  ⟨rfl, rfl, fun h => Json.noConfusion h,
    c9_projection_total itemEmptyPayload "\x7b\x7d" (Json.obj []) rfl rfl
      (fun h => Json.noConfusion h)⟩

/-- C10, confirmed: when the token endpoint answers success with a JSON body
whose `access_token` field is absent, `getAccessToken` raises no error and
returns `undefined`, and the pipeline still issues the product request with
the literal header `"Bearer undefined"` instead of failing as an auth error. -/
theorem c10_missing_token_field (w : Upstream) (d : Json)
    (hok : w.tokenResp.ok = true)
    (hparse : jsonParse w.tokenResp.body = some d)
    (hfield : jsGet d "access_token" = Except.ok none) :
    (getAccessToken w).1 = Except.ok none ∧
    (callPipeline w).2 =
      [UpstreamCall.tokenCall, UpstreamCall.productCall "Bearer undefined"] := by
  have htok : (getAccessToken w).1 = Except.ok none := by
    simp [getAccessToken, hok, hparse, hfield]
  refine ⟨htok, ?_⟩
  cases hf : (fetchProducts w none).1 with
  | error e =>
    rw [callPipeline_error w none e htok hf]
    rfl
  | ok ps =>
    rw [callPipeline_ok w none ps htok hf]
    rfl

/-- C10 witness: the concrete world with token body `"{}"` satisfies the
hypotheses: no error, and the product call goes out as `"Bearer undefined"`. -/
theorem c10_missing_token_field_witness :
    jsonParse wNoTok.tokenResp.body = some (Json.obj []) ∧
    (getAccessToken wNoTok).1 = Except.ok none ∧
    (callPipeline wNoTok).2 =
      [UpstreamCall.tokenCall, UpstreamCall.productCall "Bearer undefined"] :=
  ⟨rfl,
    (c10_missing_token_field wNoTok (Json.obj []) rfl rfl rfl).1,
    (c10_missing_token_field wNoTok (Json.obj []) rfl rfl rfl).2⟩
